import Mathlib

/-!
Verification of the openclaw task-orchestrator core against its
natural-language specification.  The definitions below are a shallow
embedding of the Rust sources: value types and the persisted task record
from crates/executor-core/src/task.rs and metadata.rs, the completion
pipeline from completion.rs, and the pure decision logic of the SSH,
container and local drivers.  Timestamps are modelled as natural numbers
(seconds); each mutating operation takes the current time as an explicit
argument in place of Utc::now().  Strings handled by the drivers are
modelled as lists of characters.
-/

namespace OpenClaw

/-- Task status.  The enum as declared in task.rs has variants
Starting, Running, Completed, Failed, Killed, Unknown only; the rest of
the repository (metadata.rs cleanup_stale_tasks, ssh_executor.rs status,
and the heartbeat test suite) additionally uses a HeartbeatTimeout
variant, which we therefore include so those modules can be embedded. -/
inductive TaskStatus where
  | starting
  | running
  | completed
  | failed
  | killed
  | heartbeatTimeout
  | unknown
deriving DecidableEq, Repr

/-- is_terminal exactly as written in task.rs: the match arms cover only
Completed, Failed and Killed, so every other variant (including
heartbeatTimeout) yields false. -/
def TaskStatus.is_terminal : TaskStatus → Bool
  | .completed => true
  | .failed => true
  | .killed => true
  | _ => false

/-- Modelled from the spec: the set of terminal statuses per the spec,
which names Completed, Failed, Killed and HeartbeatTimeout as terminal.
Kept separate from TaskStatus.is_terminal (the code) for comparison. -/
def terminalPerSpec : TaskStatus → Bool
  | .completed => true
  | .failed => true
  | .killed => true
  | .heartbeatTimeout => true
  | _ => false

/-- Default heartbeat interval from metadata.rs (30 seconds). -/
def default_heartbeat_interval : Nat := 30

/-- The persisted task record from metadata.rs (TaskMetadata). -/
structure TaskMetadata where
  task_id : String
  executor_name : String
  executor_type : String
  task_type : String
  pid : Option Nat
  status : TaskStatus
  prompt : String
  workspace : Option String
  started_at : Nat
  updated_at : Nat
  finished_at : Option Nat
  exit_code : Option Int
  error : Option String
  last_heartbeat : Option Nat
  heartbeat_interval : Option Nat
deriving DecidableEq, Repr

/-- TaskMetadata::new. -/
def TaskMetadata.new (task_id executor_name executor_type task_type prompt : String)
    (workspace : Option String) (now : Nat) : TaskMetadata :=
  { task_id := task_id
    executor_name := executor_name
    executor_type := executor_type
    task_type := task_type
    pid := none
    status := .starting
    prompt := prompt
    workspace := workspace
    started_at := now
    updated_at := now
    finished_at := none
    exit_code := none
    error := none
    last_heartbeat := none
    heartbeat_interval := some default_heartbeat_interval }

/-- TaskMetadata::mark_running. -/
def TaskMetadata.mark_running (m : TaskMetadata) (pid now : Nat) : TaskMetadata :=
  { m with pid := some pid, status := .running, updated_at := now }

/-- TaskMetadata::mark_completed. -/
def TaskMetadata.mark_completed (m : TaskMetadata) (exit_code : Int) (now : Nat) : TaskMetadata :=
  { m with
    status := if exit_code = 0 then .completed else .failed
    exit_code := some exit_code
    finished_at := some now
    updated_at := now }

/-- TaskMetadata::mark_killed. -/
def TaskMetadata.mark_killed (m : TaskMetadata) (now : Nat) : TaskMetadata :=
  { m with status := .killed, finished_at := some now, updated_at := now }

/-- TaskMetadata::mark_failed. -/
def TaskMetadata.mark_failed (m : TaskMetadata) (msg : String) (now : Nat) : TaskMetadata :=
  { m with status := .failed, error := some msg, finished_at := some now, updated_at := now }

/-- u64 wrapping subtraction: both operands reduced to u64 range, then
the wrapped difference.  For b ≤ a < 2^64 this is the ordinary
difference; for a < b ≤ 2^64 it wraps to a large value, exactly as a
release-build Rust u64 subtraction does (a debug build would panic on
the same underflow). -/
def wrapSub64 (a b : Nat) : Nat :=
  (a % 2 ^ 64 + 2 ^ 64 - b % 2 ^ 64) % 2 ^ 64

/-- u64 wrapping multiplication. -/
def wrapMul64 (a b : Nat) : Nat :=
  (a % 2 ^ 64) * (b % 2 ^ 64) % 2 ^ 64

/-- The heartbeat branch of SshExecutor::status (ssh_executor.rs lines
342 to 363): when the record is Running and a heartbeat interval is set
and the heartbeat read succeeded, store the read timestamp; then, when
now minus that timestamp exceeds ten intervals, set the status to
HeartbeatTimeout.  Note that neither finished_at nor updated_at is
touched on this path.  The u64 arithmetic of the staleness test is
modelled with release-build wrapping semantics (wrapSub64, wrapMul64);
a debug build would panic where the subtraction wraps. -/
def heartbeatProbe (m : TaskMetadata) (now : Nat) (hbRead : Option Nat) : TaskMetadata :=
  if m.status = .running then
    match m.heartbeat_interval, hbRead with
    | some interval, some last_heartbeat =>
      let m1 := { m with last_heartbeat := some last_heartbeat }
      if wrapSub64 now last_heartbeat > wrapMul64 interval 10 then
        { m1 with status := .heartbeatTimeout }
      else m1
    | _, _ => m
  else m

/-- The staleness test of cleanup_stale_tasks (metadata.rs lines 222 to
233): Running, interval present, heartbeat recorded, and older than ten
intervals, with the u64 arithmetic modelled as release-build wrapping
(wrapSub64, wrapMul64); a debug build would panic where the subtraction
wraps. -/
def isStale (now : Nat) (m : TaskMetadata) : Bool :=
  if m.status = .running then
    match m.heartbeat_interval with
    | some interval =>
      match m.last_heartbeat with
      | none => false
      | some last_heartbeat =>
        decide (wrapSub64 now last_heartbeat > wrapMul64 interval 10)
    | none => false
  else false

/-- The mutation cleanup_stale_tasks applies to a stale record
(metadata.rs lines 235 to 236): status becomes HeartbeatTimeout and
updated_at is refreshed; finished_at is not set. -/
def reclassifyStale (now : Nat) (m : TaskMetadata) : TaskMetadata :=
  { m with status := .heartbeatTimeout, updated_at := now }

/-- cleanup_stale_tasks (metadata.rs lines 190 to 250) over the list of
records parsed from the metadata directory, in directory order: each
stale Running record is reclassified and its task id collected; metadata
writes are modelled as succeeding. -/
def cleanup_stale_tasks (now : Nat) : List TaskMetadata → List TaskMetadata × List String
  | [] => ([], [])
  | m :: rest =>
    let (ms, ids) := cleanup_stale_tasks now rest
    if isStale now m then
      (reclassifyStale now m :: ms, (reclassifyStale now m).task_id :: ids)
    else (m :: ms, ids)

/-- The mutation operations on a task record named by the spec: the four
mark operations, the heartbeat reclassification inside the SSH status
probe, and the stale-sweep step.  Each carries the observation time. -/
inductive MetaOp where
  | markRunning (pid now : Nat)
  | markCompleted (code : Int) (now : Nat)
  | markKilled (now : Nat)
  | markFailed (msg : String) (now : Nat)
  | probe (now : Nat) (hbRead : Option Nat)
  | sweep (now : Nat)

/-- Apply one mutation operation to a record. -/
def MetaOp.apply (op : MetaOp) (m : TaskMetadata) : TaskMetadata :=
  match op with
  | .markRunning pid now => m.mark_running pid now
  | .markCompleted c now => m.mark_completed c now
  | .markKilled now => m.mark_killed now
  | .markFailed msg now => m.mark_failed msg now
  | .probe now hb => heartbeatProbe m now hb
  | .sweep now => if isStale now m then reclassifyStale now m else m

/-- Apply a sequence of mutation operations, oldest first. -/
def runOps (ops : List MetaOp) (m : TaskMetadata) : TaskMetadata :=
  ops.foldl (fun s op => op.apply s) m

/-- The invariant of spec item I1 restated over the statuses the mark
operations actually make terminal: when the status is Completed, Failed
or Killed, finished_at is set and equals updated_at. -/
def finishedInv (m : TaskMetadata) : Prop :=
  (m.status = .completed ∨ m.status = .failed ∨ m.status = .killed) →
    m.finished_at = some m.updated_at

/-- Predicate picking out the mark_completed operation. -/
def MetaOp.isMarkCompleted : MetaOp → Bool
  | .markCompleted _ _ => true
  | _ => false

/-- Claim C2, counterexample record: start a fresh task, mark it
running, then hit the SSH status-probe heartbeat reclassification with a
stale heartbeat (read timestamp 0 at time 1000, interval 30). -/
def c2meta : TaskMetadata :=
  runOps [MetaOp.markRunning 5 1, MetaOp.probe 1000 (some 0)]
    (TaskMetadata.new "t" "crib" "ssh" "claude_code" "hi" none 0)

/-- Claim C4, counterexample record: a Running record with interval 30
whose heartbeat is future-stamped relative to the sweep (last_heartbeat
1, to be scanned at now 0), as a remote clock ahead of the controller
clock produces; the heartbeat was stored by a non-stale probe. -/
def c4meta : TaskMetadata :=
  heartbeatProbe
    ((TaskMetadata.new "x" "crib" "ssh" "claude_code" "p" none 0).mark_running 4 1)
    1 (some 1)

/-- The completion record written to the completions directory
(completion.rs lines 34 to 40); completed_at keeps the optional
finished_at timestamp (serialized as empty when unset). -/
structure CompletionRecord where
  task_id : String
  status : String
  exit_code : Int
  completed_at : Option Nat
  executor : String
deriving DecidableEq, Repr

/-- write_completion_record (completion.rs lines 15 to 46).  The
file system is modelled as the list of task ids that already have a
completion file; the result is the returned flag, the file list after
the call, and the record written (if any).  The function writes only
when the status satisfies is_terminal (the code predicate) and no file
exists yet. -/
def write_completion_record (m : TaskMetadata) (fs : List String) :
    Bool × List String × Option CompletionRecord :=
  if m.status.is_terminal = false then (false, fs, none)
  else if fs.contains m.task_id then (false, fs, none)
  else
    (true, m.task_id :: fs,
      some
        { task_id := m.task_id
          status := if m.status = .completed then "success" else "failure"
          exit_code := m.exit_code.getD (-1)
          completed_at := m.finished_at
          executor := m.executor_name })

/-- The error kinds of error.rs relevant to the embedded operations. -/
inductive ExecutorError where
  | sshConnection (msg : String)
  | sshCommand (msg : String)
  | containerRuntime (msg : String)
  | taskNotFound (id : String)
  | configErr (msg : String)
  | processErr (msg : String)
  | ioErr (msg : String)
deriving DecidableEq, Repr

/-- SshExecutor::kill (ssh_executor.rs lines 398 to 428): with no local
metadata file the call fails with TaskNotFound; with metadata carrying a
pid the remote kills are issued, the record is marked Killed and
rewritten; with metadata but no pid the call returns success without
touching the record.  The stored value after the call is returned; the
remote command execution is modelled as succeeding. -/
def SshExecutor.kill (task_id : String) (stored : Option TaskMetadata) (now : Nat) :
    Except ExecutorError (Option TaskMetadata) :=
  match stored with
  | none => .error (.taskNotFound task_id)
  | some m =>
    match m.pid with
    | some _ => .ok (some (m.mark_killed now))
    | none => .ok (some m)

/-- LocalExecutor::kill (local_executor.rs lines 191 to 213): same
structure as the SSH kill, with the local kill subprocess in place of
the remote commands. -/
def LocalExecutor.kill (task_id : String) (stored : Option TaskMetadata) (now : Nat) :
    Except ExecutorError (Option TaskMetadata) :=
  match stored with
  | none => .error (.taskNotFound task_id)
  | some m =>
    match m.pid with
    | some _ => .ok (some (m.mark_killed now))
    | none => .ok (some m)

/-- Claim C5: a record whose status is HeartbeatTimeout — terminal per
the spec — with no completion file present, on which
write_completion_record writes nothing and returns false, because
is_terminal in task.rs omits HeartbeatTimeout (contradicting the test
suite).  This evaluates the code at the failing input of the claim. -/
def c5meta : TaskMetadata :=
  { TaskMetadata.new "h" "crib" "ssh" "claude_code" "p" none 0 with
    status := .heartbeatTimeout, updated_at := 9 }

/-- Claim C7, counterexample record: metadata present but without a pid
(a detached task still in Starting). -/
def c7meta : TaskMetadata :=
  TaskMetadata.new "d" "crib" "ssh" "claude_code" "p" none 0

/-- Single-quote character. -/
def squote : Char := Char.ofNat 39

/-- Backslash character. -/
def bslash : Char := Char.ofNat 92

/-- Dollar character (would start an expansion outside quotes). -/
def dollarCh : Char := Char.ofNat 36

/-- Backquote character (would start a command substitution). -/
def backqCh : Char := Char.ofNat 96

/-- Double-quote character. -/
def dquoteCh : Char := Char.ofNat 34

/-- Colon character. -/
def colonCh : Char := Char.ofNat 58

/-- Comma character. -/
def commaCh : Char := Char.ofNat 44

/-- ASCII whitespace for the trim model (space, tab, newline, carriage
return); the Rust trim also covers other Unicode whitespace, which none
of the modelled strings contain. -/
def isAsciiWs (c : Char) : Bool :=
  c == Char.ofNat 32 || c == Char.ofNat 9 || c == Char.ofNat 10 || c == Char.ofNat 13

/-- str::trim. -/
def trimChars (cs : List Char) : List Char :=
  ((cs.dropWhile isAsciiWs).reverse.dropWhile isAsciiWs).reverse

/-- Value of a digit string. -/
def digitsVal (cs : List Char) : Nat :=
  cs.foldl (fun a c => a * 10 + (c.toNat - 48)) 0

/-- A nonempty all-digit string parses to its value. -/
def parseDigits (cs : List Char) : Option Nat :=
  if cs ≠ [] ∧ cs.all Char.isDigit then some (digitsVal cs) else none

/-- u64::from_str: optional leading plus sign, digits, range check. -/
def parseU64 (cs : List Char) : Option Nat :=
  let body := match cs with
    | c :: rest => if c = Char.ofNat 43 then rest else cs
    | [] => []
  match parseDigits body with
  | some v => if v < 2 ^ 64 then some v else none
  | none => none

/-- i32::from_str: optional sign, digits, range check. -/
def parseI32 (cs : List Char) : Option Int :=
  let signBody : Bool × List Char := match cs with
    | c :: rest =>
      if c = Char.ofNat 45 then (true, rest)
      else if c = Char.ofNat 43 then (false, rest)
      else (false, cs)
    | [] => (false, [])
  match parseDigits signBody.2 with
  | some v =>
    if signBody.1 then
      if v ≤ 2 ^ 31 then some (-(v : Int)) else none
    else if v < 2 ^ 31 then some (v : Int) else none
  | none => none

/-- str::split on a separator character, keeping empty pieces. -/
def splitOnChar (sep : Char) : List Char → List (List Char)
  | [] => [[]]
  | c :: rest =>
    if c = sep then [] :: splitOnChar sep rest
    else
      match splitOnChar sep rest with
      | [] => [[c]]
      | h :: t => (c :: h) :: t

/-- Whether the second list starts with the first. -/
def leadsWith : List Char → List Char → Bool
  | [], _ => true
  | _ :: _, [] => false
  | p :: ps, c :: cs => p == c && leadsWith ps cs

/-- Substring occurrence test (str::contains). -/
def hasSub (pat : List Char) : List Char → Bool
  | [] => leadsWith pat []
  | c :: rest => leadsWith pat (c :: rest) || hasSub pat rest

/-- The key looked for by the heartbeat parser. -/
def timestampKey : List Char := "timestamp".data

/-- The parsing part of SshExecutor::read_heartbeat (ssh_executor.rs
lines 129 to 144), applied to the remote cat output: when the text
mentions timestamp, take the piece after the first colon, trim it, take
the part before the first comma, trim again, and parse as u64. -/
def read_heartbeat_parse (output : List Char) : Option Nat :=
  if hasSub timestampKey output then
    match (splitOnChar colonCh output).get? 1 with
    | some ts =>
      match (splitOnChar commaCh (trimChars ts)).head? with
      | some tsStr => parseU64 (trimChars tsStr)
      | none => none
    | none => none
  else none

/-- The exact heartbeat file content produced by the generated remote
heartbeat script (ssh_executor.rs lines 111 to 126): a single-field
JSON object followed by the newline echo appends. -/
def heartbeat_file_content (ts : Nat) : List Char :=
  [Char.ofNat 123, dquoteCh] ++ timestampKey ++ [dquoteCh, colonCh] ++
    (toString ts).data ++ [Char.ofNat 125, Char.ofNat 10]

/-- str::replace seen characterwise: a single quote becomes the
four-character sequence quote backslash quote quote. -/
def escQuoteChar (c : Char) : List Char :=
  if c = squote then [squote, bslash, squote, squote] else [c]

/-- The replacement the two shell_escape functions perform on the
string body. -/
def rustReplaceQuote (s : List Char) : List Char := s.flatMap escQuoteChar

/-- shell_escape (ssh_executor.rs lines 450 to 452 and
local_executor.rs lines 233 to 235): wrap in single quotes after
replacing each internal quote. -/
def shell_escape (s : List Char) : List Char :=
  squote :: (rustReplaceQuote s ++ [squote])

/-- Modelled from the spec: POSIX shell word decoding restricted to the
constructs the spec names (P9 and section 9, shell-injection safety).
Inside single quotes every character except the closing quote is
literal; outside quotes a backslash makes the next character literal, a
single quote opens a quoted span, and a character that would trigger an
expansion (dollar, backquote, double quote) is rejected; an unterminated
quote or trailing backslash is rejected. -/
def shDecode : Bool → List Char → Option (List Char)
  | false, [] => some []
  | false, c :: rest =>
    if c = squote then shDecode true rest
    else if c = bslash then
      match rest with
      | [] => none
      | d :: rest2 => (shDecode false rest2).map (fun t => d :: t)
    else if c = dollarCh ∨ c = backqCh ∨ c = dquoteCh then none
    else (shDecode false rest).map (fun t => c :: t)
  | true, [] => none
  | true, c :: rest =>
    if c = squote then shDecode false rest
    else (shDecode true rest).map (fun t => c :: t)

/-- Decode a whole word starting outside quotes. -/
def posixDecode (s : List Char) : Option (List Char) := shDecode false s

/-- The exit code ContainerExecutor::status derives in the exited
branch (container_executor.rs lines 183 to 196): the inspect output
defaults to the string 1 when the inspection command fails, and the
trimmed parse defaults to 1 on failure. -/
def exitCodeOnExited (inspectOut : Option (List Char)) : Int :=
  let exitStr := inspectOut.getD ("1".data)
  (parseI32 (trimChars exitStr)).getD 1

/-- The exited branch of ContainerExecutor::status: mark_completed with
the derived exit code. -/
def statusOnExited (m : TaskMetadata) (now : Nat) (inspectOut : Option (List Char)) :
    TaskMetadata :=
  m.mark_completed (exitCodeOnExited inspectOut) now

/-- The exit code SshExecutor::status derives when the remote process
is gone (ssh_executor.rs lines 370 to 377): the cat of the exit-code
file falls back to the string 0 (both for a missing file, through the
echo in the remote command, and for a failed execution), and the
trimmed parse defaults to 0 on failure. -/
def exitCodeOnStopped (readOut : Option (List Char)) : Int :=
  let exitOutput := readOut.getD ("0".data)
  (parseI32 (trimChars exitOutput)).getD 0

/-- The stopped branch of SshExecutor::status: mark_completed with the
derived exit code. -/
def statusOnStopped (m : TaskMetadata) (now : Nat) (readOut : Option (List Char)) :
    TaskMetadata :=
  m.mark_completed (exitCodeOnStopped readOut) now

/-- The heartbeat probe never touches finished_at, updated_at or
exit_code, and either leaves the status alone or sets HeartbeatTimeout. -/
theorem heartbeatProbe_fields (m : TaskMetadata) (now : Nat) (hb : Option Nat) :
    (heartbeatProbe m now hb).finished_at = m.finished_at ∧
    (heartbeatProbe m now hb).updated_at = m.updated_at ∧
    (heartbeatProbe m now hb).exit_code = m.exit_code ∧
    ((heartbeatProbe m now hb).status = m.status ∨
      (heartbeatProbe m now hb).status = .heartbeatTimeout) := by
  unfold heartbeatProbe
  by_cases h : m.status = .running
  · simp only [h, if_true]
    rcases hI : m.heartbeat_interval with _ | i
    · simp [hI, h]
    · rcases hb with _ | t
      · simp [hI, h]
      · simp only [hI]
        by_cases hstale : wrapSub64 now t > wrapMul64 i 10 <;> simp [hstale]
  · simp [h]

/-- Each mutation operation preserves finishedInv. -/
theorem apply_finishedInv (op : MetaOp) (m : TaskMetadata) (h : finishedInv m) :
    finishedInv (op.apply m) := by
  cases op with
  | markRunning pid now =>
    intro hs
    simp [MetaOp.apply, TaskMetadata.mark_running] at hs
  | markCompleted c now =>
    intro _
    simp [MetaOp.apply, TaskMetadata.mark_completed]
  | markKilled now =>
    intro _
    simp [MetaOp.apply, TaskMetadata.mark_killed]
  | markFailed msg now =>
    intro _
    simp [MetaOp.apply, TaskMetadata.mark_failed]
  | probe now hb =>
    intro hs
    obtain ⟨hf, hu, _, hst⟩ := heartbeatProbe_fields m now hb
    simp only [MetaOp.apply] at hs ⊢
    rcases hst with hst | hst
    · rw [hst] at hs
      rw [hf, hu]
      exact h hs
    · rcases hs with h1 | h1 | h1 <;> rw [hst] at h1 <;> exact absurd h1 (by decide)
  | sweep now =>
    intro hs
    by_cases hstale : isStale now m
    · simp [MetaOp.apply, hstale, reclassifyStale] at hs
    · simpa [MetaOp.apply, hstale] using h (by simpa [MetaOp.apply, hstale] using hs)

/-- A whole sequence of mutation operations preserves finishedInv. -/
theorem runOps_finishedInv (ops : List MetaOp) (m : TaskMetadata) (h : finishedInv m) :
    finishedInv (runOps ops m) := by
  induction ops generalizing m with
  | nil => exact h
  | cons op rest ih => exact ih (op.apply m) (apply_finishedInv op m h)

/-- A fresh record satisfies finishedInv (its status is Starting). -/
theorem new_finishedInv (tid en et tt p : String) (w : Option String) (now : Nat) :
    finishedInv (TaskMetadata.new tid en et tt p w now) := by
  intro hs
  simp [TaskMetadata.new] at hs

/-- Every operation other than mark_completed leaves exit_code alone. -/
theorem apply_exit_code (op : MetaOp) (m : TaskMetadata)
    (h : op.isMarkCompleted = false) : (op.apply m).exit_code = m.exit_code := by
  cases op with
  | markRunning pid now => simp [MetaOp.apply, TaskMetadata.mark_running]
  | markCompleted c now => simp [MetaOp.isMarkCompleted] at h
  | markKilled now => simp [MetaOp.apply, TaskMetadata.mark_killed]
  | markFailed msg now => simp [MetaOp.apply, TaskMetadata.mark_failed]
  | probe now hb => exact (heartbeatProbe_fields m now hb).2.2.1
  | sweep now =>
    by_cases hstale : isStale now m <;> simp [MetaOp.apply, hstale, reclassifyStale]

/-- exit_code is none after a run exactly when it started none and no
mark_completed occurred. -/
theorem runOps_exit_none (ops : List MetaOp) (m : TaskMetadata) :
    (runOps ops m).exit_code = none ↔
      (m.exit_code = none ∧ ∀ op ∈ ops, op.isMarkCompleted = false) := by
  induction ops generalizing m with
  | nil => simp [runOps]
  | cons op rest ih =>
    have hstep : runOps (op :: rest) m = runOps rest (op.apply m) := rfl
    rw [hstep, ih]
    cases hop : op.isMarkCompleted with
    | true =>
      cases op with
      | markCompleted c now =>
        simp [MetaOp.apply, TaskMetadata.mark_completed, MetaOp.isMarkCompleted]
      | markRunning pid now => simp [MetaOp.isMarkCompleted] at hop
      | markKilled now => simp [MetaOp.isMarkCompleted] at hop
      | markFailed msg now => simp [MetaOp.isMarkCompleted] at hop
      | probe now hb => simp [MetaOp.isMarkCompleted] at hop
      | sweep now => simp [MetaOp.isMarkCompleted] at hop
    | false =>
      rw [apply_exit_code op m hop]
      simp [hop]

/-- Claim C1: the spec says is_terminal is true for exactly Completed,
Failed, Killed and HeartbeatTimeout and that HeartbeatTimeout is a
TaskStatus variant.  In task.rs the variant is absent and the match in
is_terminal covers only Completed, Failed and Killed, contradicting the
test suite, which asserts that HeartbeatTimeout is terminal.  This
theorem records what the code computes: HeartbeatTimeout is not
terminal, and is_terminal holds exactly on the three variants. -/
theorem claim_C1 :
    TaskStatus.is_terminal .heartbeatTimeout = false ∧
      ∀ s : TaskStatus,
        s.is_terminal = true ↔ (s = .completed ∨ s = .failed ∨ s = .killed) := by
  refine ⟨rfl, ?_⟩
  intro s
  cases s <;> simp [TaskStatus.is_terminal]

/-- The reclassified-list component of the sweep is exactly the ids of
the stale records, in scan order. -/
theorem cleanup_stale_tasks_snd (now : Nat) (records : List TaskMetadata) :
    (cleanup_stale_tasks now records).2 =
      (records.filter (fun m => isStale now m)).map TaskMetadata.task_id := by
  induction records with
  | nil => rfl
  | cons m rest ih =>
    by_cases hm : isStale now m <;>
      simp [cleanup_stale_tasks, hm, ih, reclassifyStale]

/-- The record-list component of the sweep reclassifies exactly the
stale records and leaves the rest untouched. -/
theorem cleanup_stale_tasks_fst (now : Nat) (records : List TaskMetadata) :
    (cleanup_stale_tasks now records).1 =
      records.map (fun m => if isStale now m then reclassifyStale now m else m) := by
  induction records with
  | nil => rfl
  | cons m rest ih =>
    by_cases hm : isStale now m <;> simp [cleanup_stale_tasks, hm, ih]

/-- Unfolding of the staleness test as a conjunction, with the wrapping
u64 comparison the program performs. -/
theorem isStale_iff (now : Nat) (m : TaskMetadata) :
    isStale now m = true ↔
      (m.status = .running ∧ ∃ i lh, m.heartbeat_interval = some i ∧
        m.last_heartbeat = some lh ∧ wrapSub64 now lh > wrapMul64 i 10) := by
  unfold isStale
  by_cases h : m.status = .running
  · simp only [h, if_true, true_and]
    rcases hI : m.heartbeat_interval with _ | i
    · simp [hI]
    · rcases hL : m.last_heartbeat with _ | lh
      · simp [hI, hL]
      · simp [hI, hL]
  · simp [h]

/-- Claim C2, counterexample: a record reachable through the allowed
transitions (Starting, mark_running, probe reclassification) whose
status is HeartbeatTimeout, hence terminal per the spec, while
finished_at is unset — refuting both the iff of I1 and the demand that
the HeartbeatTimeout transition set finished_at. -/
theorem claim_C2_counterexample :
    terminalPerSpec c2meta.status = true ∧
      c2meta.status = .heartbeatTimeout ∧ c2meta.finished_at = none := by
  refine ⟨by decide, by decide, by decide⟩

/-- Claim C2 as amended: for any sequence of the mutation operations
starting from a fresh record, whenever the status is Completed, Failed
or Killed, finished_at is set and equals updated_at; the two
HeartbeatTimeout transitions however never set finished_at (the sweep
refreshes only updated_at, the SSH probe touches neither), so a
HeartbeatTimeout record keeps finished_at unset. -/
theorem claim_C2 (tid en et tt p : String) (w : Option String) (now0 : Nat)
    (ops : List MetaOp) :
    finishedInv (runOps ops (TaskMetadata.new tid en et tt p w now0)) ∧
      (∀ (m : TaskMetadata) (now : Nat) (hb : Option Nat),
        (heartbeatProbe m now hb).finished_at = m.finished_at) ∧
      ∀ (now : Nat) (m : TaskMetadata),
        (reclassifyStale now m).finished_at = m.finished_at := by
  refine ⟨runOps_finishedInv ops _ (new_finishedInv tid en et tt p w now0), ?_, ?_⟩
  · intro m now hb
    exact (heartbeatProbe_fields m now hb).1
  · intro now m
    rfl

/-- Claim C2, witness: the amended invariant evaluated on a concrete
run ending in mark_completed. -/
theorem claim_C2_witness :
    (runOps [MetaOp.markCompleted 0 7]
        (TaskMetadata.new "t" "e" "ssh" "claude_code" "p" none 0)).finished_at =
      some (runOps [MetaOp.markCompleted 0 7]
        (TaskMetadata.new "t" "e" "ssh" "claude_code" "p" none 0)).updated_at :=
  (claim_C2 "t" "e" "ssh" "claude_code" "p" none 0
    [MetaOp.markCompleted 0 7]).1 (Or.inl (by decide))

/-- The wrapped difference agrees with the ordinary difference when no
underflow occurs and the minuend is in u64 range. -/
theorem wrapSub64_of_le (a b : Nat) (hba : b ≤ a) (ha : a < 2 ^ 64) :
    wrapSub64 a b = a - b := by
  have hb : b < 2 ^ 64 := lt_of_le_of_lt hba ha
  unfold wrapSub64
  rw [Nat.mod_eq_of_lt ha, Nat.mod_eq_of_lt hb]
  have h1 : a + 2 ^ 64 - b = 2 ^ 64 + (a - b) := by omega
  rw [h1, Nat.add_mod_left, Nat.mod_eq_of_lt (by omega)]

/-- The wrapped product agrees with the ordinary product when no
overflow occurs. -/
theorem wrapMul64_of_lt (a b : Nat) (ha : a < 2 ^ 64) (hb : b < 2 ^ 64)
    (h : a * b < 2 ^ 64) : wrapMul64 a b = a * b := by
  unfold wrapMul64
  rw [Nat.mod_eq_of_lt ha, Nat.mod_eq_of_lt hb, Nat.mod_eq_of_lt h]

/-- Claim C4, counterexample: a Running record with interval 30 and
last_heartbeat 1 scanned at now 0 (a future-stamped heartbeat, as clock
skew between the remote writer and the controller produces).  The
mathematical condition of the claim, now − last_heartbeat >
10·heartbeat_interval, is false there (−1 is not greater than 300), yet
the sweep reclassifies the record and returns its id, because the
release-build u64 subtraction wraps — refuting the claimed iff. -/
theorem claim_C4_counterexample :
    c4meta.status = .running ∧ c4meta.heartbeat_interval = some 30 ∧
      c4meta.last_heartbeat = some 1 ∧ isStale 0 c4meta = true ∧
      (cleanup_stale_tasks 0 [c4meta]).2 = ["x"] ∧
      ¬((0 : Int) - 1 > 10 * 30) := by
  refine ⟨by decide, by decide, by decide, by decide, by decide, by decide⟩

/-- Claim C4 as amended: the stale sweep reclassifies a record exactly
when its status is Running, a heartbeat interval is set, a last
heartbeat is recorded, and the wrapping u64 difference now minus
last_heartbeat exceeds the wrapping u64 product of interval and ten;
when last_heartbeat ≤ now and neither operation overflows, this is
exactly now − last_heartbeat > 10·heartbeat_interval, but a
future-stamped heartbeat is also reclassified because the subtraction
wraps.  A Running record with no recorded heartbeat is never
reclassified, and the returned id list is exactly the ids of the
reclassified records. -/
theorem claim_C4 (now : Nat) (records : List TaskMetadata) :
    (cleanup_stale_tasks now records).1 =
        records.map (fun m => if isStale now m then reclassifyStale now m else m) ∧
      (cleanup_stale_tasks now records).2 =
        (records.filter (fun m => isStale now m)).map TaskMetadata.task_id ∧
      (∀ m : TaskMetadata, isStale now m = true ↔
        (m.status = .running ∧ ∃ i lh, m.heartbeat_interval = some i ∧
          m.last_heartbeat = some lh ∧ wrapSub64 now lh > wrapMul64 i 10)) ∧
      (∀ (m : TaskMetadata) (i lh : Nat), m.status = .running →
        m.heartbeat_interval = some i → m.last_heartbeat = some lh →
        lh ≤ now → now < 2 ^ 64 → i * 10 < 2 ^ 64 →
        (isStale now m = true ↔ now - lh > i * 10)) ∧
      ∀ m : TaskMetadata, m.status = .running → m.last_heartbeat = none →
        isStale now m = false := by
  refine ⟨cleanup_stale_tasks_fst now records, cleanup_stale_tasks_snd now records,
    fun m => isStale_iff now m, ?_, ?_⟩
  · intro m i lh h1 h2 h3 h4 h5 h6
    have hi : i < 2 ^ 64 := by omega
    simp only [isStale, h1, if_true, h2, h3, decide_eq_true_eq]
    rw [wrapSub64_of_le now lh h4 h5, wrapMul64_of_lt i 10 hi (by decide) h6]
  · intro m hrun hnone
    unfold isStale
    rcases hI : m.heartbeat_interval with _ | i <;> simp [hrun, hI, hnone]

/-- Claim C4, witness: the sweep at time 1000 on a Running record whose
stored heartbeat is 5 (no underflow, no overflow) reclassifies it and
returns its id by the ordinary arithmetic condition, and a Running
record with no recorded heartbeat is not stale. -/
theorem claim_C4_witness :
    (cleanup_stale_tasks 1000
        [heartbeatProbe
          ((TaskMetadata.new "a" "e" "ssh" "claude_code" "p" none 0).mark_running 4 1)
          10 (some 5)]).2 = ["a"] ∧
      isStale 1000
          (heartbeatProbe
            ((TaskMetadata.new "a" "e" "ssh" "claude_code" "p" none 0).mark_running 4 1)
            10 (some 5)) = true ∧
      isStale 1000 ((TaskMetadata.new "a" "e" "ssh" "claude_code" "p" none 0).mark_running 4 1)
        = false := by
  have h := claim_C4 1000
    [heartbeatProbe
      ((TaskMetadata.new "a" "e" "ssh" "claude_code" "p" none 0).mark_running 4 1)
      10 (some 5)]
  refine ⟨?_, ?_, ?_⟩
  · rw [h.2.1]
    decide
  · exact (h.2.2.2.1
      (heartbeatProbe
        ((TaskMetadata.new "a" "e" "ssh" "claude_code" "p" none 0).mark_running 4 1)
        10 (some 5)) 30 5
      (by decide) (by decide) (by decide) (by decide) (by decide) (by decide)).2
      (by decide)
  · exact h.2.2.2.2 _ (by decide) (by decide)

/-- Claim C6: mark_completed stores the exit code and sets the status by
its sign test, and over any operation sequence from a fresh record the
exit code is set exactly when some mark_completed occurred. -/
theorem claim_C6 :
    (∀ (m : TaskMetadata) (c : Int) (now : Nat),
        (m.mark_completed c now).status =
            (if c = 0 then TaskStatus.completed else .failed) ∧
          (m.mark_completed c now).exit_code = some c) ∧
      ∀ (tid en et tt p : String) (w : Option String) (now0 : Nat) (ops : List MetaOp),
        ((runOps ops (TaskMetadata.new tid en et tt p w now0)).exit_code ≠ none ↔
          ∃ op ∈ ops, op.isMarkCompleted = true) := by
  refine ⟨fun m c now => ⟨rfl, rfl⟩, ?_⟩
  intro tid en et tt p w now0 ops
  rw [Ne, runOps_exit_none]
  simp [TaskMetadata.new]

/-- Claim C5: the iff (written exactly when terminal and absent) fails
on the code at a HeartbeatTimeout record: the status is terminal per the
spec and no file exists, yet nothing is written and false is returned. -/
theorem claim_C5 :
    terminalPerSpec c5meta.status = true ∧
      write_completion_record c5meta [] = (false, [], none) := by
  refine ⟨by decide, by decide⟩

/-- Claim C9: when the code considers the status terminal, no file
exists yet and exit_code is unset, the record written carries exit_code
-1, and its status string is success exactly for Completed (failure for
the other statuses the code treats as terminal). -/
theorem claim_C9 (m : TaskMetadata) (fs : List String)
    (hterm : m.status.is_terminal = true) (hexit : m.exit_code = none)
    (habsent : fs.contains m.task_id = false) :
    ∃ r : CompletionRecord,
      write_completion_record m fs = (true, m.task_id :: fs, some r) ∧
        r.exit_code = -1 ∧
        (r.status = "success" ↔ m.status = .completed) := by
  refine ⟨{ task_id := m.task_id
            status := if m.status = .completed then "success" else "failure"
            exit_code := m.exit_code.getD (-1)
            completed_at := m.finished_at
            executor := m.executor_name }, ?_, ?_, ?_⟩
  · have hmem : m.task_id ∉ fs := by simpa using habsent
    simp [write_completion_record, hterm, hmem]
  · simp [hexit]
  · by_cases hc : m.status = .completed <;> simp [hc]

/-- Claim C9, witness: a Killed record with unset exit code gets a
failure record with exit_code -1. -/
theorem claim_C9_witness :
    ∃ r : CompletionRecord,
      write_completion_record
          ((TaskMetadata.new "k" "e" "ssh" "claude_code" "p" none 0).mark_killed 3) [] =
        (true, ["k"], some r) ∧
        r.exit_code = -1 ∧
        (r.status = "success" ↔
          ((TaskMetadata.new "k" "e" "ssh" "claude_code" "p" none 0).mark_killed 3).status
            = .completed) :=
  claim_C9 ((TaskMetadata.new "k" "e" "ssh" "claude_code" "p" none 0).mark_killed 3) []
    (by decide) (by decide) (by decide)

/-- Claim C7, counterexample: kill on a task whose metadata has no pid
returns success while the stored metadata keeps status Starting, so a
successful kill does not always leave the metadata Killed. -/
theorem claim_C7_counterexample :
    SshExecutor.kill "d" (some c7meta) 3 = .ok (some c7meta) ∧
      c7meta.status = .starting := by
  exact ⟨rfl, rfl⟩

/-- Claim C7 as amended: kill returns TaskNotFound exactly when no local
metadata file exists; when the metadata carries a pid, a successful kill
leaves the stored metadata Killed; when the metadata has no pid, kill
succeeds without modifying the stored metadata (so it is not Killed
unless it already was).  Both the SSH and the local driver behave this
way. -/
theorem claim_C7 :
    (∀ (tid : String) (now : Nat),
        SshExecutor.kill tid none now = .error (.taskNotFound tid) ∧
          LocalExecutor.kill tid none now = .error (.taskNotFound tid)) ∧
      (∀ (tid : String) (m : TaskMetadata) (p now : Nat), m.pid = some p →
        SshExecutor.kill tid (some m) now = .ok (some (m.mark_killed now)) ∧
          LocalExecutor.kill tid (some m) now = .ok (some (m.mark_killed now)) ∧
          (m.mark_killed now).status = .killed) ∧
      (∀ (tid : String) (m : TaskMetadata) (now : Nat), m.pid = none →
        SshExecutor.kill tid (some m) now = .ok (some m) ∧
          LocalExecutor.kill tid (some m) now = .ok (some m)) ∧
      ∀ (tid : String) (stored : Option TaskMetadata) (now : Nat),
        (∃ i, SshExecutor.kill tid stored now = .error (.taskNotFound i)) ↔
          stored = none := by
  refine ⟨fun tid now => ⟨rfl, rfl⟩, ?_, ?_, ?_⟩
  · intro tid m p now hp
    simp [SshExecutor.kill, LocalExecutor.kill, hp, TaskMetadata.mark_killed]
  · intro tid m now hp
    simp [SshExecutor.kill, LocalExecutor.kill, hp]
  · intro tid stored now
    rcases stored with _ | m
    · simp [SshExecutor.kill]
    · rcases hp : m.pid with _ | p <;> simp [SshExecutor.kill, hp]

/-- Claim C7, witness: the amended statement evaluated on a concrete
record with pid 100, and on a missing metadata file. -/
theorem claim_C7_witness :
    SshExecutor.kill "w"
        (some ((TaskMetadata.new "w" "e" "ssh" "claude_code" "p" none 0).mark_running 100 1)) 2 =
      .ok (some (((TaskMetadata.new "w" "e" "ssh" "claude_code" "p" none 0).mark_running 100 1).mark_killed 2)) ∧
      SshExecutor.kill "w" none 2 = .error (.taskNotFound "w") :=
  ⟨((claim_C7.2.1 "w"
      ((TaskMetadata.new "w" "e" "ssh" "claude_code" "p" none 0).mark_running 100 1)
      100 2 (by decide)).1),
    (claim_C7.1 "w" 2).1⟩

/-- Claim C3: on the exact content the heartbeat script writes, the
parser fails — it splits only on commas and never strips the closing
brace, so the u64 parse sees the digits followed by the brace and
returns none (contradicting the comment above the code, which promises
to extract the timestamp from that very example).  Consequently, on a
failed parse the status probe leaves the record, and in particular
last_heartbeat, unchanged. -/
theorem claim_C3 :
    read_heartbeat_parse (heartbeat_file_content 1234567890) = none ∧
      ∀ (m : TaskMetadata) (now : Nat), heartbeatProbe m now none = m := by
  constructor
  · decide
  · intro m now
    unfold heartbeatProbe
    by_cases h : m.status = .running
    · rcases hI : m.heartbeat_interval with _ | i <;> simp [h, hI]
    · simp [h]

/-- Decoding the escaped body from inside an open quote, with the
closing quote appended, recovers the original characters. -/
theorem bslash_ne_squote : ¬ (bslash = squote) := by decide

/-- Unfolding step: a quote opens a quoted span. -/
theorem shDecode_false_squote (rest : List Char) :
    shDecode false (squote :: rest) = shDecode true rest := by
  rw [shDecode.eq_def]
  simp

/-- Unfolding step: outside quotes a backslash makes the next character
literal. -/
theorem shDecode_false_bslash (d : Char) (rest2 : List Char) :
    shDecode false (bslash :: d :: rest2) =
      (shDecode false rest2).map (fun t => d :: t) := by
  rw [shDecode.eq_def]
  simp [bslash_ne_squote]

/-- Unfolding step: inside quotes the closing quote ends the span. -/
theorem shDecode_true_squote (rest : List Char) :
    shDecode true (squote :: rest) = shDecode false rest := by
  rw [shDecode.eq_def]
  simp

/-- Unfolding step: inside quotes any other character is literal. -/
theorem shDecode_true_other (c : Char) (rest : List Char) (h : ¬ c = squote) :
    shDecode true (c :: rest) = (shDecode true rest).map (fun t => c :: t) := by
  rw [shDecode.eq_def]
  simp [h]

theorem shDecode_escBody (s : List Char) :
    shDecode true (rustReplaceQuote s ++ [squote]) = some s := by
  induction s with
  | nil =>
    simp only [rustReplaceQuote, List.flatMap_nil, List.nil_append]
    rw [shDecode_true_squote]
    rw [shDecode.eq_def]
  | cons c t ih =>
    simp only [rustReplaceQuote] at ih
    by_cases hc : c = squote
    · subst hc
      simp only [rustReplaceQuote, List.flatMap_cons, escQuoteChar, eq_self_iff_true,
        if_true, List.append_assoc, List.cons_append, List.nil_append]
      rw [shDecode_true_squote, shDecode_false_bslash, shDecode_false_squote, ih]
      rfl
    · simp only [rustReplaceQuote, List.flatMap_cons, escQuoteChar, if_neg hc,
        List.cons_append, List.nil_append, List.singleton_append]
      rw [shDecode_true_other c _ hc, ih]
      rfl

/-- Claim C8: shell_escape wraps the input in single quotes with each
internal quote replaced by the quote backslash quote quote sequence, and
decoding the result under POSIX single-quote semantics recovers the
input exactly, whatever characters (quotes, dollars, backslashes,
newlines) it contains. -/
theorem claim_C8 (s : List Char) :
    shell_escape s = squote :: (rustReplaceQuote s ++ [squote]) ∧
      posixDecode (shell_escape s) = some s := by
  refine ⟨rfl, ?_⟩
  have h1 : posixDecode (shell_escape s) =
      shDecode true (rustReplaceQuote s ++ [squote]) := by
    simp only [posixDecode, shell_escape]
    exact shDecode_false_squote (rustReplaceQuote s ++ [squote])
  rw [h1]
  exact shDecode_escBody s

/-- Claim C10: in the container driver a failed or unparseable exit-code
inspection defaults to exit code 1, so the exited task is marked Failed,
while in the SSH driver a missing exit-code read defaults to 0, so the
stopped task is marked Completed. -/
theorem claim_C10 :
    (∀ (m : TaskMetadata) (now : Nat), (statusOnExited m now none).status = .failed) ∧
      (∀ (m : TaskMetadata) (now : Nat) (s : List Char),
        parseI32 (trimChars s) = none → (statusOnExited m now (some s)).status = .failed) ∧
      (∀ (m : TaskMetadata) (now : Nat), (statusOnStopped m now none).status = .completed) ∧
      exitCodeOnExited none = 1 ∧ exitCodeOnStopped none = 0 := by
  have hone : exitCodeOnExited none = 1 := by decide
  have hzero : exitCodeOnStopped none = 0 := by decide
  refine ⟨?_, ?_, ?_, hone, hzero⟩
  · intro m now
    simp [statusOnExited, TaskMetadata.mark_completed, hone]
  · intro m now s hs
    simp [statusOnExited, TaskMetadata.mark_completed, exitCodeOnExited, hs]
  · intro m now
    simp [statusOnStopped, TaskMetadata.mark_completed, hzero]

/-- Claim C10, witness: an exited container whose exit-code output does
not parse is marked Failed. -/
theorem claim_C10_witness :
    (statusOnExited (TaskMetadata.new "c" "box" "container" "claude_code" "p" none 0) 5
        (some ("xyz".data))).status = .failed :=
  claim_C10.2.1 (TaskMetadata.new "c" "box" "container" "claude_code" "p" none 0) 5
    ("xyz".data) (by decide)

end OpenClaw
